import Mathlib

/-!
# Check observation and result reconciliation: a shallow embedding

Verification of the node-local health-check subsystem: check-ID derivation
(`nomad/structs/checks.go` and its md5 content-addressed iteration), the
result store shim (`client/serviceregistration/checks/checkstore/shim.go`),
the probe executor (`client/serviceregistration/checks/client.go`), and the
allocation lifecycle hook (`client/allocrunner` checks hook).

Go strings are modelled as byte sequences (`GoString := List Nat`); Go maps
as association lists with overwrite-on-put semantics; machine integers as
`Nat` with explicit reduction modulo 2^32 / 2^64 where the code depends on
the width; fallible operations (panics) as `Option`. External effects
(network dial, HTTP round trips) are supplied as oracle parameters, so the
probe executor is a pure function of the oracle. Code of the repository that
is not part of the sources under verification (such as
`serviceregistration.GetAddress` and `helper.CopyMap`) is modelled from the
specification and marked `Modelled from the spec:` in its doc comment.
-/

set_option maxRecDepth 8000

/-- Go strings as byte sequences. ASCII literals are built with `gostr`. -/
abbrev GoString := List Nat

/-- Byte sequence of an ASCII string literal. -/
def gostr (s : String) : GoString := s.data.map Char.toNat

/-! ## Go maps as association lists

`mget`, `mput`, `mdel` and `mkeys` model Go map lookup, assignment, `delete`
and `range`-over-keys on an association list. `mput` overwrites the first
binding of the key if present, otherwise appends. -/

variable {α : Type}

def mget : List (GoString × α) → GoString → Option α
  | [], _ => none
  | (k, v) :: rest, key => if k = key then some v else mget rest key

def mput : List (GoString × α) → GoString → α → List (GoString × α)
  | [], key, v => [(key, v)]
  | (k, w) :: rest, key, v =>
    if k = key then (key, v) :: rest else (k, w) :: mput rest key v

def mdel (m : List (GoString × α)) (key : GoString) : List (GoString × α) :=
  m.filter (fun kv => decide (kv.1 ≠ key))

def mkeys (m : List (GoString × α)) : List GoString := m.map Prod.fst

/-! ## MD5 (`crypto/md5`)

The content-addressed check IDs feed field bytes into an md5 sum. The
digest algorithm (RFC 1321) is reproduced here over byte lists; words are
`Nat` reduced modulo 2^32. -/

/-- Left-rotation of a 32-bit word. -/
def rotl32 (x s : Nat) : Nat := ((x <<< s) % 4294967296) ||| (x >>> (32 - s))

/-- Bitwise complement of a 32-bit word. -/
def compl32 (x : Nat) : Nat := x ^^^ 4294967295

/-- Round constants `K[i] = floor(2^32 * |sin(i+1)|)`. -/
def md5K : List Nat :=
  [0xd76aa478, 0xe8c7b756, 0x242070db, 0xc1bdceee,
   0xf57c0faf, 0x4787c62a, 0xa8304613, 0xfd469501,
   0x698098d8, 0x8b44f7af, 0xffff5bb1, 0x895cd7be,
   0x6b901122, 0xfd987193, 0xa679438e, 0x49b40821,
   0xf61e2562, 0xc040b340, 0x265e5a51, 0xe9b6c7aa,
   0xd62f105d, 0x02441453, 0xd8a1e681, 0xe7d3fbc8,
   0x21e1cde6, 0xc33707d6, 0xf4d50d87, 0x455a14ed,
   0xa9e3e905, 0xfcefa3f8, 0x676f02d9, 0x8d2a4c8a,
   0xfffa3942, 0x8771f681, 0x6d9d6122, 0xfde5380c,
   0xa4beea44, 0x4bdecfa9, 0xf6bb4b60, 0xbebfbc70,
   0x289b7ec6, 0xeaa127fa, 0xd4ef3085, 0x04881d05,
   0xd9d4d039, 0xe6db99e5, 0x1fa27cf8, 0xc4ac5665,
   0xf4292244, 0x432aff97, 0xab9423a7, 0xfc93a039,
   0x655b59c3, 0x8f0ccc92, 0xffeff47d, 0x85845dd1,
   0x6fa87e4f, 0xfe2ce6e0, 0xa3014314, 0x4e0811a1,
   0xf7537e82, 0xbd3af235, 0x2ad7d2bb, 0xeb86d391]

/-- Per-round left-rotation amounts. -/
def md5S : List Nat :=
  [7, 12, 17, 22, 7, 12, 17, 22, 7, 12, 17, 22, 7, 12, 17, 22,
   5, 9, 14, 20, 5, 9, 14, 20, 5, 9, 14, 20, 5, 9, 14, 20,
   4, 11, 16, 23, 4, 11, 16, 23, 4, 11, 16, 23, 4, 11, 16, 23,
   6, 10, 15, 21, 6, 10, 15, 21, 6, 10, 15, 21, 6, 10, 15, 21]

/-- One of the 64 md5 rounds, acting on the state `(A, B, C, D)`. -/
def md5Round (M : List Nat) (st : Nat × Nat × Nat × Nat) (i : Nat) :
    Nat × Nat × Nat × Nat :=
  let A := st.1; let B := st.2.1; let C := st.2.2.1; let D := st.2.2.2
  let F :=
    if i < 16 then (B &&& C) ||| (compl32 B &&& D)
    else if i < 32 then (D &&& B) ||| (compl32 D &&& C)
    else if i < 48 then B ^^^ C ^^^ D
    else C ^^^ (B ||| compl32 D)
  let g :=
    if i < 16 then i
    else if i < 32 then (5 * i + 1) % 16
    else if i < 48 then (3 * i + 5) % 16
    else (7 * i) % 16
  let Fv := (F + A + md5K.getD i 0 + M.getD g 0) % 4294967296
  (D, (B + rotl32 Fv (md5S.getD i 0)) % 4294967296, B, C)

/-- Little-endian 4-byte encoding of a 32-bit word. -/
def enc4 (n : Nat) : List Nat :=
  [n % 256, n / 256 % 256, n / 65536 % 256, n / 16777216 % 256]

/-- Little-endian 8-byte encoding of a 64-bit value, as written by
`binary.Write(sum, binary.LittleEndian, ...)` for the interval and timeout. -/
def enc8 (n : Nat) : List Nat :=
  [n % 256, n / 256 % 256, n / 65536 % 256, n / 16777216 % 256,
   n / 4294967296 % 256, n / 1099511627776 % 256,
   n / 281474976710656 % 256, n / 72057594037927936 % 256]

/-- Process one 64-byte block. -/
def md5Block (st : Nat × Nat × Nat × Nat) (block : List Nat) :
    Nat × Nat × Nat × Nat :=
  let M := (List.range 16).map (fun j =>
    block.getD (4 * j) 0 + 256 * block.getD (4 * j + 1) 0 +
    65536 * block.getD (4 * j + 2) 0 + 16777216 * block.getD (4 * j + 3) 0)
  let r := (List.range 64).foldl (md5Round M) st
  ((st.1 + r.1) % 4294967296, (st.2.1 + r.2.1) % 4294967296,
   (st.2.2.1 + r.2.2.1) % 4294967296, (st.2.2.2 + r.2.2.2) % 4294967296)

/-- Md5 padding: a `0x80` byte, zeros to 56 mod 64, then the bit length. -/
def md5pad (msg : List Nat) : List Nat :=
  msg ++ 128 :: List.replicate ((119 - msg.length % 64) % 64) 0 ++
    enc8 ((msg.length * 8) % 18446744073709551616)

/-- Split a padded message into 64-byte blocks. -/
def chunk64 (l : List Nat) : List (List Nat) :=
  if h : l = [] then [] else l.take 64 :: chunk64 (l.drop 64)
termination_by l.length
decreasing_by
  have hp : 0 < l.length := List.length_pos.mpr h
  simp only [List.length_drop]
  omega

/-- The 16-byte md5 digest of a byte sequence. -/
def md5digest (msg : List Nat) : List Nat :=
  let st := (chunk64 (md5pad msg)).foldl md5Block
    (0x67452301, 0xefcdab89, 0x98badcfe, 0x10325476)
  enc4 st.1 ++ enc4 st.2.1 ++ enc4 st.2.2.1 ++ enc4 st.2.2.2

/-- Byte value of a lowercase hex digit character. -/
def hexDigitChar (n : Nat) : Nat := if n < 10 then 48 + n else 87 + n

/-- Lowercase hex rendering of a byte sequence (`fmt.Sprintf "%x"`). -/
def bytesToHex (l : List Nat) : List Nat :=
  (l.map (fun b => [hexDigitChar (b / 16), hexDigitChar (b % 16)])).flatten

/-- Hex-rendered md5 sum, as the Go code produces with `%x` of `sum.Sum(nil)`. -/
def md5hex (msg : List Nat) : GoString := bytesToHex (md5digest msg)

/-! ## Check data model (`nomad/structs/checks.go`) -/

/-- A check either asks for healthiness or readiness. -/
inductive CheckMode where
  | healthiness
  | readiness
  deriving DecidableEq, Repr

/-- Ternary status of a check query: success, failure, or pending. -/
inductive CheckStatus where
  | success
  | failure
  | pending
  deriving DecidableEq, Repr

/-- Outcome of a single execution of a service check. -/
structure CheckQueryResult where
  ID : GoString
  Kind : CheckMode
  Status : CheckStatus
  Output : GoString
  Timestamp : Int
  deriving DecidableEq, Repr

/-- Declarative check definition (`structs.ServiceCheck`), restricted to the
fields the subsystem reads: identity (task name, check name) and the
execution-relevant fields. `Typ` stands for the Go field `Type`; `Interval`
and `Timeout` are `time.Duration` bit patterns (64-bit). -/
structure ServiceCheck where
  Name : GoString
  TaskName : GoString
  Typ : GoString
  PortLabel : GoString
  AddressMode : GoString
  OnUpdate : GoString
  Interval : Nat
  Timeout : Nat
  Protocol : GoString
  Path : GoString
  Method : GoString
  deriving DecidableEq, Repr

/-- GetCheckMode: a check whose update-reaction policy is "ignore" is a
readiness check, every other check is a healthiness check. -/
def GetCheckMode (c : ServiceCheck) : CheckMode :=
  if c.OnUpdate = gostr "ignore" then .readiness else .healthiness

/-- Stub pending result inserted before a check has first executed
(`checks.Stub`). -/
def Stub (id : GoString) (kind : CheckMode) (now : Int) : CheckQueryResult :=
  { ID := id, Kind := kind, Status := .pending,
    Output := gostr "waiting on nomad", Timestamp := now }

/-- MakeCheckID, the `chk_`-prefixed variant of `nomad/structs/checks.go`:
`allocID[0:8]` is Go string slicing and panics (`none`) when the allocation
ID is shorter than 8 bytes. -/
def MakeCheckID (allocID group task name : GoString) : Option GoString :=
  if allocID.length < 8 then none
  else
    let id := allocID.take 8
    if task = [] then
      some (gostr "chk_" ++ group ++ gostr "_" ++ name ++ gostr "_" ++ id)
    else
      some (gostr "chk_" ++ group ++ gostr "_" ++ task ++ gostr "_" ++ name
        ++ gostr "_" ++ id)

/-- MakeCheckID, the md5 iteration (second `structs` iteration): the sum of
the four identity fields, hex rendered. Total, used by the checks hook. -/
def MakeCheckIDmd5 (allocID group task name : GoString) : GoString :=
  md5hex (allocID ++ group ++ task ++ name)

/-- Conditional field write of `NomadCheckID`: an empty string is skipped
(which writes the same bytes as writing it would). -/
def wrField (s : GoString) : GoString := if s = [] then [] else s

/-- Byte sequence fed to the md5 sum by `NomadCheckID` (content-addressed
iteration): identity fields followed by every execution-relevant field, with
interval and timeout written as 8 little-endian bytes each. -/
def nomadCheckIDInput (allocID group : GoString) (c : ServiceCheck) : GoString :=
  wrField allocID ++ wrField group ++ wrField c.TaskName ++ wrField c.Name ++
  wrField c.Typ ++ wrField c.PortLabel ++ wrField c.OnUpdate ++
  wrField c.AddressMode ++ enc8 c.Interval ++ enc8 c.Timeout ++
  wrField c.Protocol ++ wrField c.Path ++ wrField c.Method

/-- NomadCheckID: hex md5 of the concatenated field bytes. -/
def NomadCheckID (allocID group : GoString) (c : ServiceCheck) : GoString :=
  md5hex (nomadCheckIDInput allocID group c)

/-- The eight execution-relevant fields other than the probe type agree. -/
def agreeButTyp (a b : ServiceCheck) : Prop :=
  a.PortLabel = b.PortLabel ∧ a.OnUpdate = b.OnUpdate ∧
  a.AddressMode = b.AddressMode ∧ a.Interval = b.Interval ∧
  a.Timeout = b.Timeout ∧ a.Protocol = b.Protocol ∧ a.Path = b.Path ∧
  a.Method = b.Method

/-- The eight execution-relevant fields other than the port label agree. -/
def agreeButPortLabel (a b : ServiceCheck) : Prop :=
  a.Typ = b.Typ ∧ a.OnUpdate = b.OnUpdate ∧
  a.AddressMode = b.AddressMode ∧ a.Interval = b.Interval ∧
  a.Timeout = b.Timeout ∧ a.Protocol = b.Protocol ∧ a.Path = b.Path ∧
  a.Method = b.Method

/-- The eight execution-relevant fields other than the policy agree. -/
def agreeButOnUpdate (a b : ServiceCheck) : Prop :=
  a.Typ = b.Typ ∧ a.PortLabel = b.PortLabel ∧
  a.AddressMode = b.AddressMode ∧ a.Interval = b.Interval ∧
  a.Timeout = b.Timeout ∧ a.Protocol = b.Protocol ∧ a.Path = b.Path ∧
  a.Method = b.Method

/-- The eight execution-relevant fields other than the address mode agree. -/
def agreeButAddressMode (a b : ServiceCheck) : Prop :=
  a.Typ = b.Typ ∧ a.PortLabel = b.PortLabel ∧ a.OnUpdate = b.OnUpdate ∧
  a.Interval = b.Interval ∧
  a.Timeout = b.Timeout ∧ a.Protocol = b.Protocol ∧ a.Path = b.Path ∧
  a.Method = b.Method

/-- The eight execution-relevant fields other than the interval agree. -/
def agreeButInterval (a b : ServiceCheck) : Prop :=
  a.Typ = b.Typ ∧ a.PortLabel = b.PortLabel ∧ a.OnUpdate = b.OnUpdate ∧
  a.AddressMode = b.AddressMode ∧
  a.Timeout = b.Timeout ∧ a.Protocol = b.Protocol ∧ a.Path = b.Path ∧
  a.Method = b.Method

/-- The eight execution-relevant fields other than the timeout agree. -/
def agreeButTimeout (a b : ServiceCheck) : Prop :=
  a.Typ = b.Typ ∧ a.PortLabel = b.PortLabel ∧ a.OnUpdate = b.OnUpdate ∧
  a.AddressMode = b.AddressMode ∧ a.Interval = b.Interval ∧
  a.Protocol = b.Protocol ∧ a.Path = b.Path ∧
  a.Method = b.Method

/-- The eight execution-relevant fields other than the protocol agree. -/
def agreeButProtocol (a b : ServiceCheck) : Prop :=
  a.Typ = b.Typ ∧ a.PortLabel = b.PortLabel ∧ a.OnUpdate = b.OnUpdate ∧
  a.AddressMode = b.AddressMode ∧ a.Interval = b.Interval ∧
  a.Timeout = b.Timeout ∧ a.Path = b.Path ∧
  a.Method = b.Method

/-- The eight execution-relevant fields other than the path agree. -/
def agreeButPath (a b : ServiceCheck) : Prop :=
  a.Typ = b.Typ ∧ a.PortLabel = b.PortLabel ∧ a.OnUpdate = b.OnUpdate ∧
  a.AddressMode = b.AddressMode ∧ a.Interval = b.Interval ∧
  a.Timeout = b.Timeout ∧ a.Protocol = b.Protocol ∧
  a.Method = b.Method

/-- The eight execution-relevant fields other than the method agree. -/
def agreeButMethod (a b : ServiceCheck) : Prop :=
  a.Typ = b.Typ ∧ a.PortLabel = b.PortLabel ∧ a.OnUpdate = b.OnUpdate ∧
  a.AddressMode = b.AddressMode ∧ a.Interval = b.Interval ∧
  a.Timeout = b.Timeout ∧ a.Protocol = b.Protocol ∧ a.Path = b.Path

/-- Two check definitions differ in exactly one execution-relevant field
(probe type, port label, update-reaction policy, address mode, interval,
timeout, protocol, path or method) and agree on the other eight. -/
def DiffExactlyOne (a b : ServiceCheck) : Prop :=
  (a.Typ ≠ b.Typ ∧ agreeButTyp a b) ∨
  (a.PortLabel ≠ b.PortLabel ∧ agreeButPortLabel a b) ∨
  (a.OnUpdate ≠ b.OnUpdate ∧ agreeButOnUpdate a b) ∨
  (a.AddressMode ≠ b.AddressMode ∧ agreeButAddressMode a b) ∨
  (a.Interval ≠ b.Interval ∧ agreeButInterval a b) ∨
  (a.Timeout ≠ b.Timeout ∧ agreeButTimeout a b) ∨
  (a.Protocol ≠ b.Protocol ∧ agreeButProtocol a b) ∨
  (a.Path ≠ b.Path ∧ agreeButPath a b) ∨
  (a.Method ≠ b.Method ∧ agreeButMethod a b)

instance decAgreeButTyp (a b : ServiceCheck) : Decidable (agreeButTyp a b) := by
  unfold agreeButTyp; infer_instance

instance decAgreeButPortLabel (a b : ServiceCheck) :
    Decidable (agreeButPortLabel a b) := by
  unfold agreeButPortLabel; infer_instance

instance decAgreeButOnUpdate (a b : ServiceCheck) :
    Decidable (agreeButOnUpdate a b) := by
  unfold agreeButOnUpdate; infer_instance

instance decAgreeButAddressMode (a b : ServiceCheck) :
    Decidable (agreeButAddressMode a b) := by
  unfold agreeButAddressMode; infer_instance

instance decAgreeButInterval (a b : ServiceCheck) :
    Decidable (agreeButInterval a b) := by
  unfold agreeButInterval; infer_instance

instance decAgreeButTimeout (a b : ServiceCheck) :
    Decidable (agreeButTimeout a b) := by
  unfold agreeButTimeout; infer_instance

instance decAgreeButProtocol (a b : ServiceCheck) :
    Decidable (agreeButProtocol a b) := by
  unfold agreeButProtocol; infer_instance

instance decAgreeButPath (a b : ServiceCheck) : Decidable (agreeButPath a b) := by
  unfold agreeButPath; infer_instance

instance decAgreeButMethod (a b : ServiceCheck) :
    Decidable (agreeButMethod a b) := by
  unfold agreeButMethod; infer_instance

instance decDiffExactlyOne (a b : ServiceCheck) :
    Decidable (DiffExactlyOne a b) := by
  unfold DiffExactlyOne; infer_instance

/-! ## Result store (`checkstore/shim.go`)

The store's cache is the two-level map `alloc_id -> check_id -> result`. The
durable `state.StateDB` behind it is an external collaborator; its calls
(`PutCheckResult`, `DeleteCheckResults`, `PurgeCheckResults`) are treated as
errorless mirrors of the cache, so only the cache is carried. -/

/-- View of `check_id -> latest result` for one allocation. -/
abbrev AllocResultMap := List (GoString × CheckQueryResult)

/-- The store cache: `alloc_id -> check_id -> latest result`. -/
abbrev ShimState := List (GoString × AllocResultMap)

/-- Shim.Set: upsert the latest result of a check. Panics (`none`) on an
empty allocation ID or an empty result ID, mirroring the two explicit
`panic` calls in the source. -/
def shimSet (cur : ShimState) (allocID : GoString) (qr : CheckQueryResult) :
    Option ShimState :=
  if allocID = [] then none
  else if qr.ID = [] then none
  else
    let am := (mget cur allocID).getD []
    some (mput cur allocID (mput am qr.ID qr))

/-- Modelled from the spec: `helper.CopyMap` is not under src/; per the spec
`List` hands back an independent copy of the allocation's mapping, so the
copy is the map rebuilt entry by entry. -/
def copyMap (m : AllocResultMap) : AllocResultMap :=
  m.map (fun kv => (kv.1, kv.2))

/-- Shim.List: the latest results of one allocation, `none` when the
allocation has no entries, otherwise a copy of the mapping. -/
def shimList (cur : ShimState) (allocID : GoString) : Option AllocResultMap :=
  (mget cur allocID).map copyMap

/-- Shim.Unwanted: the IDs currently stored for the allocation that are not
in `ids`. -/
def shimUnwanted (cur : ShimState) (allocID : GoString) (ids : List GoString) :
    List GoString :=
  (mkeys ((mget cur allocID).getD [])).filter (fun id => decide (id ∉ ids))

/-- Modelled from the spec: `Remove(allocID, ids)` is called by the hook but
only the `Keep`-based iteration of the shim is under src/; per the spec it
deletes the given IDs from cache and durable store. -/
def shimRemove (cur : ShimState) (allocID : GoString) (ids : List GoString) :
    ShimState :=
  match mget cur allocID with
  | none => cur
  | some am => mput cur allocID (ids.foldl mdel am)

/-- Shim.Purge: drop every entry of the allocation. -/
def shimPurge (cur : ShimState) (allocID : GoString) : ShimState :=
  mdel cur allocID

/-- Lookup of one check's stored result within one allocation (an absent
allocation reads as the empty mapping, like a nil Go map). -/
def amget (cur : ShimState) (allocID id : GoString) : Option CheckQueryResult :=
  mget ((mget cur allocID).getD []) id

/-! ## Probe executor (`client/serviceregistration/checks/client.go`) -/

/-- Minimal parameters needed to execute a check (`checks.Query`). -/
structure Query where
  Kind : CheckMode
  Typ : GoString
  AddressMode : GoString
  PortLabel : GoString
  Protocol : GoString
  Path : GoString
  Method : GoString

/-- Allocation and service parameters for address resolution
(`checks.QueryContext`). `Networks`, `NetworkStatus` and `Ports` are
consumed only by the external `serviceregistration.GetAddress`; they are
carried as the data that call needs: the allocation's claimed ports (label
to host port) and the host address. -/
structure QueryContext where
  ID : GoString
  CustomAddress : GoString
  ServicePortLabel : GoString
  Ports : List (GoString × Nat)
  HostAddress : GoString

/-- Result of one probe execution (`checks.QueryResult`); `Result` is the
ternary outcome, `Output` the human-readable text. -/
structure QueryResult where
  ID : GoString
  Kind : CheckMode
  Result : CheckStatus
  Output : GoString
  Timestamp : Int

/-- Outcome of an HTTP round trip as seen by `checkHTTP`: request
construction error, transport error, or a response whose body read may
itself fail. -/
inductive HttpOutcome where
  | reqErr (e : GoString)
  | transportErr (e : GoString)
  | response (status : Nat) (body : Except GoString GoString)

/-- Oracle for the network effects: the dial outcome per address (`none` is
success) and the HTTP outcome per method and URL. -/
structure NetOracle where
  dial : GoString → Option GoString
  http : GoString → GoString → HttpOutcome

/-- Decimal rendering of a port number (`strconv.Itoa`, ports are
non-negative). -/
def natToDec (n : Nat) : GoString := (Nat.toDigits 10 n).map Char.toNat

/-- Address and port joined as `net.JoinHostPort` does: `host:port`, with
the host bracketed when it contains a colon. -/
def joinHostPort (host : GoString) (port : Nat) : GoString :=
  if 58 ∈ host then 91 :: host ++ 93 :: 58 :: natToDec port
  else host ++ 58 :: natToDec port

/-- Check address mode selected by `address`: an explicit mode wins; with no
explicit mode, a service with a custom address resolves in "auto" mode and
otherwise the check defaults to "host" mode. -/
def resolveMode (qc : QueryContext) (q : Query) : GoString :=
  if q.AddressMode = [] then
    if qc.CustomAddress ≠ [] then gostr "auto" else gostr "host"
  else q.AddressMode

/-- Port label selected by `address`: the check's own label when set,
otherwise the service's. -/
def resolveLabel (qc : QueryContext) (q : Query) : GoString :=
  if q.PortLabel = [] then qc.ServicePortLabel else q.PortLabel

/-- Modelled from the spec: `serviceregistration.GetAddress` is not under
src/. Per the spec, "auto" mode inherits the service's custom address (and
falls back to host resolution without one); "host" mode resolves the node
host address with the port claimed under the label, failing with a
resolution error when the label is not claimed; other modes need
allocation-network data not modelled here and fail. -/
def specGetAddress (custom mode label : GoString) (ports : List (GoString × Nat))
    (hostAddr : GoString) : Except GoString (GoString × Nat) :=
  let hostCase : Except GoString (GoString × Nat) :=
    match mget ports label with
    | some p => .ok (hostAddr, p)
    | none => .error (gostr "port label not claimed by the allocation: " ++ label)
  if mode = gostr "auto" then
    if custom ≠ [] then .ok (custom, (mget ports label).getD 0)
    else hostCase
  else if mode = gostr "host" then hostCase
  else .error (gostr "unsupported address mode: " ++ mode)

/-- Resolve the dial address for a query (`address` in client.go): pick the
mode and port label, call GetAddress, and join host and port when a port
was resolved. -/
def address (qc : QueryContext) (q : Query) : Except GoString GoString :=
  match specGetAddress qc.CustomAddress (resolveMode qc q) (resolveLabel qc q)
    qc.Ports qc.HostAddress with
  | .error e => .error e
  | .ok (addr, port) =>
    .ok (if port > 0 then joinHostPort addr port else addr)

/-- URL built by `checkHTTP` from scheme, host and path (`url.URL.String`
for the simple shapes the checker builds). -/
def urlOf (protocol addr path : GoString) : GoString :=
  protocol ++ gostr "://" ++ addr ++ path

/-- TCP probe (`checker.checkTCP`): failed resolution or dial yields a
failure result carrying the error text; a successful dial yields success
with the fixed output. -/
def checkTCP (now : Int) (o : NetOracle) (qc : QueryContext) (q : Query) :
    QueryResult :=
  let qr : QueryResult :=
    { ID := [], Kind := q.Kind, Result := .success, Output := [], Timestamp := now }
  match address qc q with
  | .error e => { qr with Output := e, Result := .failure }
  | .ok addr =>
    match o.dial addr with
    | some e => { qr with Output := e, Result := .failure }
    | none => { qr with Output := gostr "nomad: ok" }

/-- HTTP probe (`checker.checkHTTP`): failed resolution, request build or
round trip yields a failure result carrying the error text; otherwise the
whole response body (or the read error) becomes the output and the status
code classifies the result, success strictly below 400. -/
def checkHTTP (now : Int) (o : NetOracle) (qc : QueryContext) (q : Query) :
    QueryResult :=
  let qr : QueryResult :=
    { ID := [], Kind := q.Kind, Result := .pending, Output := [], Timestamp := now }
  match address qc q with
  | .error e => { qr with Output := e, Result := .failure }
  | .ok addr =>
    match o.http q.Method (urlOf q.Protocol addr q.Path) with
    | .reqErr e => { qr with Output := gostr "nomad: " ++ e, Result := .failure }
    | .transportErr e =>
      { qr with Output := gostr "nomad: " ++ e, Result := .failure }
    | .response status body =>
      let qr1 :=
        match body with
        | .error e => { qr with Output := gostr "nomad: " ++ e }
        | .ok b => { qr with Output := b }
      if status < 400 then { qr1 with Result := .success }
      else { qr1 with Result := .failure }

/-- Checker.Do: dispatch on the probe type ("http" or the TCP default) and
stamp the check ID onto the result. Total: every outcome is a result. -/
def checkerDo (now : Int) (o : NetOracle) (qc : QueryContext) (q : Query) :
    QueryResult :=
  let qr := if q.Typ = gostr "http" then checkHTTP now o qc q
    else checkTCP now o qc q
  { qr with ID := qc.ID }

/-! ## Lifecycle manager (`checksHook`, allocrunner)

The hook owns one allocation's observers. Observer map values are goroutine
handles (context + cancel function); what the reconciliation claims observe
of them is the key set, which checks were cancelled and which were freshly
started, so the model carries the key set and `hookUpdate` reports the
cancelled and started ID lists. The durable DB behind the shim is errorless
(external collaborator), so the only `Set` failure is its panic. -/

/-- A service as the hook consumes it: nomad provider, group or task level,
with its checks. -/
structure Service where
  Name : GoString
  TaskName : GoString
  PortLabel : GoString
  Address : GoString
  Checks : List ServiceCheck

/-- The slice of an allocation the hook reads. `NomadSvcs` is
`LookupTaskGroup` composed with `NomadServices()` (both outside src/):
`none` when the task group is not found in the job. -/
structure Alloc where
  ID : GoString
  TaskGroup : GoString
  NomadSvcs : Option (List Service)

/-- State of the checks hook: the allocation ID captured at construction,
the observer key set, the result store, and the current alloc. -/
structure ChecksHook where
  allocID : GoString
  observers : List GoString
  shim : ShimState
  alloc : Alloc

/-- Check ID the observer loop derives for a check: `structs.MakeCheckID`
(md5 iteration) of alloc ID, task group, the check's task name and the
check name. -/
def checkIDof (alloc : Alloc) (c : ServiceCheck) : GoString :=
  MakeCheckIDmd5 alloc.ID alloc.TaskGroup c.TaskName c.Name

/-- IDs of a list of checks as `observe` derives them. -/
def idsOfChecks (alloc : Alloc) (cs : List ServiceCheck) : List GoString :=
  cs.map (checkIDof alloc)

/-- Checks of a service list in iteration order. -/
def svcChecks (services : List Service) : List ServiceCheck :=
  (services.map Service.Checks).flatten

/-- Desired ID set computed by `checksHook.Update`: note it derives the ID
from the SERVICE task name, where `observe` uses the CHECK task name. -/
def desiredIDs (alloc : Alloc) (services : List Service) : List GoString :=
  (services.map (fun svc => svc.Checks.map (fun c =>
    MakeCheckIDmd5 alloc.ID alloc.TaskGroup svc.TaskName c.Name))).flatten

/-- Loop body of `checksHook.observe` over the flattened checks: skip a
check whose ID already has an observer; otherwise record the observer,
insert the pending stub into the store (a `Set` panic aborts, `none`) and
start the observer (collected in the started list). -/
def observeGo (hAllocID : GoString) (alloc : Alloc) (now : Int) :
    List ServiceCheck → List GoString × ShimState × List GoString →
    Option (List GoString × ShimState × List GoString)
  | [], st => some st
  | c :: cs, (obs, cur, started) =>
    if checkIDof alloc c ∈ obs then
      observeGo hAllocID alloc now cs (obs, cur, started)
    else
      match shimSet cur hAllocID
        (Stub (checkIDof alloc c) (GetCheckMode c) now) with
      | none => none
      | some cur1 =>
        observeGo hAllocID alloc now cs
          (obs ++ [checkIDof alloc c], cur1, started ++ [checkIDof alloc c])

/-- checksHook.observe: create and start an observer for every check of the
services that does not have one, returning the new hook state and the list
of freshly started check IDs. -/
def observe (h : ChecksHook) (now : Int) (alloc : Alloc)
    (services : List Service) : Option (ChecksHook × List GoString) :=
  (observeGo h.allocID alloc now (svcChecks services)
      (h.observers, h.shim, [])).map
    (fun st => ({ h with observers := st.1, shim := st.2.1, alloc := alloc },
      st.2.2))

/-- checksHook.Update: recompute the desired IDs from the new alloc, stop
and delete the observers of unwanted IDs (a missing observer is a nil
dereference, `none`), remove their results, remember the alloc, and observe
the new checks. Returns the state plus the cancelled and started ID lists. -/
def hookUpdate (h : ChecksHook) (now : Int) (alloc : Alloc) :
    Option (ChecksHook × List GoString × List GoString) :=
  match alloc.NomadSvcs with
  | none => some (h, [], [])
  | some services =>
    let next := desiredIDs alloc services
    let remove := shimUnwanted h.shim alloc.ID next
    if h2 : ∀ id ∈ remove, id ∈ h.observers then
      let h1 : ChecksHook :=
        { h with observers := h.observers.filter (fun id => decide (id ∉ remove)),
                 shim := shimRemove h.shim alloc.ID remove }
      (observe h1 now alloc services).map (fun p => (p.1, remove, p.2))
    else none

/-! ## Observer loop interleavings (PreKill and in-flight probes)

One observer's loop interleaved with the hook's `PreKill`. The observer is
in one of three phases: waiting in its `select`, executing a probe, or
exited. The transitions mirror the loop body: a timer fire moves waiting to
probing; when the probe returns, the result is written to the store
unconditionally (there is no context check between `Do` and `Set`) and the
loop re-enters the select; a cancelled observer reaching the select exits.
`PreKill` cancels the context and purges the allocation's results. -/

inductive ObsPhase where
  | waiting
  | probing
  | stopped
  deriving DecidableEq, Repr

/-- One observer plus the store, as `PreKill` interleaves with it. -/
structure ObsSys where
  cur : ShimState
  cancelled : Bool
  phase : ObsPhase
  deriving Repr

/-- The interval timer fires while the observer waits: the probe begins.
(The Go select may pick the timer branch even after cancellation when both
channels are ready; this step does not require `cancelled = false`.) -/
def stepTimerFire (s : ObsSys) : ObsSys :=
  if s.phase = .waiting then { s with phase := .probing } else s

/-- checksHook.PreKill: cancel the allocation context, then purge the
allocation's results from the store. -/
def stepPreKill (allocID : GoString) (s : ObsSys) : ObsSys :=
  { s with cancelled := true, cur := shimPurge s.cur allocID }

/-- The in-flight probe returns with result `r`: the loop writes it to the
store (no context check precedes the write) and re-enters the select. -/
def stepProbeReturn (allocID : GoString) (r : CheckQueryResult) (s : ObsSys) :
    ObsSys :=
  if s.phase = .probing then
    match shimSet s.cur allocID r with
    | none => s
    | some cur1 => { s with cur := cur1, phase := .waiting }
  else s

/-- A cancelled observer reaching its select exits the loop. -/
def stepSelectDone (s : ObsSys) : ObsSys :=
  if s.phase = .waiting ∧ s.cancelled = true then { s with phase := .stopped }
  else s

/-! ## Concrete instances used by counterexamples and witnesses -/

/-- Allocation ID of the C1 counterexample. -/
def allocIDc : GoString := gostr "5fff3c9f-0cde-8e32-b1a1-a652c1dd4a2c"

/-- Task group name of the C1 counterexample. -/
def groupC : GoString := gostr "web"

/-- First check of the C1 counterexample: an https check with empty path. -/
def chkA : ServiceCheck :=
  { Name := gostr "healthz", TaskName := [], Typ := gostr "http",
    PortLabel := gostr "http", AddressMode := [], OnUpdate := [],
    Interval := 10000000000, Timeout := 2000000000,
    Protocol := gostr "https", Path := [], Method := gostr "GET" }

/-- Second check of the C1 counterexample: same identity, but an http check
with path "s" — protocol and path both differ from `chkA`. -/
def chkB : ServiceCheck :=
  { chkA with Protocol := gostr "http", Path := gostr "s" }

/-- First check of the C1 witness pair: like `chkA` but with a path. -/
def chkC : ServiceCheck := { chkA with Path := gostr "/healthz" }

/-- Second check of the C1 witness pair: differs from `chkC` only in the
interval. -/
def chkD : ServiceCheck := { chkC with Interval := 30000000000 }

/-- Query context whose service exposes port label "http" as host port 8080
on host 10.0.0.1, with no custom address. -/
def qcOk : QueryContext :=
  { ID := gostr "cid1", CustomAddress := [],
    ServicePortLabel := gostr "http",
    Ports := [(gostr "http", 8080)], HostAddress := gostr "10.0.0.1" }

/-- HTTP query with no explicit address mode and no own port label. -/
def qHttp : Query :=
  { Kind := .healthiness, Typ := gostr "http", AddressMode := [],
    PortLabel := [], Protocol := gostr "http", Path := gostr "/health",
    Method := gostr "GET" }

/-- A response body one byte longer than the 3 KB output cap. -/
def bigBody : GoString := List.replicate 3073 120

/-- Oracle answering every HTTP request with 200 and the oversized body. -/
def oracleBig : NetOracle :=
  { dial := fun _ => none, http := fun _ _ => .response 200 (.ok bigBody) }

/-- Oracle answering every HTTP request with 200 and a short body. -/
def oracleSmall : NetOracle :=
  { dial := fun _ => none, http := fun _ _ => .response 200 (.ok (gostr "ok body")) }

/-- TCP query with no explicit address mode and no own port label. -/
def qTcp : Query :=
  { Kind := .healthiness, Typ := gostr "tcp", AddressMode := [],
    PortLabel := [], Protocol := gostr "http", Path := [], Method := [] }

/-- Query context whose service claims no ports: host resolution fails. -/
def qcBadLabel : QueryContext :=
  { ID := gostr "cid2", CustomAddress := [],
    ServicePortLabel := gostr "db", Ports := [],
    HostAddress := gostr "10.0.0.1" }

/-- Oracle refusing every TCP dial and failing every HTTP round trip. -/
def oracleDown : NetOracle :=
  { dial := fun _ => some (gostr "dial tcp: connection refused"),
    http := fun _ _ => .transportErr (gostr "connect: no route to host") }

/-- Query context with a custom service address. -/
def qcCustom : QueryContext :=
  { ID := gostr "cid3", CustomAddress := gostr "example.com",
    ServicePortLabel := gostr "http", Ports := [(gostr "http", 8080)],
    HostAddress := gostr "10.0.0.1" }

/-- Query with no explicit address mode but its own port label. -/
def qOwnLabel : Query :=
  { Kind := .healthiness, Typ := gostr "http", AddressMode := [],
    PortLabel := gostr "metrics", Protocol := gostr "http",
    Path := gostr "/", Method := gostr "GET" }

/-- Check used by the C2/C6 witness: group-level (empty task name). -/
def chkW : ServiceCheck :=
  { Name := gostr "ping", TaskName := [], Typ := gostr "tcp",
    PortLabel := [], AddressMode := [], OnUpdate := [],
    Interval := 10000000000, Timeout := 2000000000,
    Protocol := [], Path := [], Method := [] }

/-- Service used by the C2/C6 witness. -/
def svcW : Service :=
  { Name := gostr "web-svc", TaskName := [], PortLabel := gostr "http",
    Address := [], Checks := [chkW] }

/-- Allocation used by the C2/C6 witness. -/
def allocW : Alloc :=
  { ID := gostr "aaaaaaaa-bbbb-cccc-dddd-eeeeeeeeeeee",
    TaskGroup := gostr "web", NomadSvcs := some [svcW] }

/-- Hook state used by the C2/C6 witness: no observers, empty store. -/
def hookW : ChecksHook :=
  { allocID := allocW.ID, observers := [], shim := [], alloc := allocW }

/-- Allocation ID of the C3 trace. -/
def aid3 : GoString := gostr "33333333-aaaa-bbbb-cccc-dddddddddddd"

/-- Check ID of the C3 trace's observer. -/
def cid3 : GoString := gostr "deadbeef00112233"

/-- In-flight probe result of the C3 trace. -/
def res3 : CheckQueryResult :=
  { ID := cid3, Kind := .healthiness, Status := .success,
    Output := gostr "nomad: ok", Timestamp := 42 }

/-- Initial state of the C3 trace: the stub is stored, the observer waits,
nothing is cancelled. -/
def sys3 : ObsSys :=
  { cur := [(aid3, [(cid3, Stub cid3 .healthiness 0)])],
    cancelled := false, phase := .waiting }

/-! ## Association map lemmas -/

theorem mget_mput_self (m : List (GoString × α)) (k : GoString) (v : α) :
    mget (mput m k v) k = some v := by
  induction m with
  | nil => simp [mput, mget]
  | cons kv rest ih =>
    obtain ⟨k1, v1⟩ := kv
    by_cases hk : k1 = k
    · simp [mput, mget, hk]
    · simp [mput, mget, hk, ih]

theorem mdel_cons (k2 : GoString) (v2 : α) (rest : List (GoString × α))
    (k : GoString) :
    mdel ((k2, v2) :: rest) k =
      if k2 = k then mdel rest k else (k2, v2) :: mdel rest k := by
  by_cases hk : k2 = k <;> simp [mdel, hk]

theorem mget_mput_ne (m : List (GoString × α)) (k k1 : GoString) (v : α)
    (h : k1 ≠ k) : mget (mput m k v) k1 = mget m k1 := by
  induction m with
  | nil => simp [mput, mget, Ne.symm h]
  | cons kv rest ih =>
    obtain ⟨k2, v2⟩ := kv
    simp only [mput]
    have h1 : ¬ (k = k1) := fun he => h he.symm
    by_cases hk : k2 = k
    · have h2 : ¬ (k2 = k1) := by rw [hk]; exact h1
      simp [if_pos hk, mget, h1, h2]
    · simp only [if_neg hk]
      by_cases hk1 : k2 = k1
      · simp [mget, hk1]
      · simp [mget, hk1, ih]

theorem mget_mdel_self (m : List (GoString × α)) (k : GoString) :
    mget (mdel m k) k = none := by
  induction m with
  | nil => simp [mdel, mget]
  | cons kv rest ih =>
    obtain ⟨k1, v1⟩ := kv
    rw [mdel_cons]
    by_cases hk : k1 = k
    · simp [hk, ih]
    · simp [mget, hk, ih]

theorem mget_mdel_ne (m : List (GoString × α)) (k k1 : GoString) (h : k1 ≠ k) :
    mget (mdel m k) k1 = mget m k1 := by
  induction m with
  | nil => simp [mdel, mget]
  | cons kv rest ih =>
    obtain ⟨k2, v2⟩ := kv
    rw [mdel_cons]
    by_cases hk : k2 = k
    · have h2 : ¬ (k2 = k1) := by rw [hk]; exact fun he => h he.symm
      simp [if_pos hk, mget, h2, ih]
    · by_cases hk1 : k2 = k1
      · simp [mget, hk, hk1, h]
      · simp [mget, hk, hk1, ih]

theorem mget_foldl_mdel (ids : List GoString) (m : List (GoString × α))
    (k : GoString) :
    mget (ids.foldl mdel m) k = if k ∈ ids then none else mget m k := by
  induction ids generalizing m with
  | nil => simp
  | cons i rest ih =>
    by_cases hk : k = i
    · subst hk
      simp only [List.foldl_cons, ih, List.mem_cons, true_or, if_true]
      by_cases hr : k ∈ rest
      · simp [hr]
      · simp [hr, mget_mdel_self]
    · simp only [List.foldl_cons, ih, List.mem_cons]
      by_cases hr : k ∈ rest
      · simp [hr]
      · simp [hr, hk, mget_mdel_ne m i k hk]

theorem mget_isSome_iff_mem_mkeys (m : List (GoString × α)) (k : GoString) :
    (mget m k).isSome ↔ k ∈ mkeys m := by
  induction m with
  | nil => simp [mget, mkeys]
  | cons kv rest ih =>
    obtain ⟨k1, v1⟩ := kv
    by_cases hk : k1 = k
    · simp [mget, mkeys, hk]
    · simp [mget, mkeys, hk, Ne.symm hk, ih]

theorem mget_eq_none_iff_not_mem_mkeys (m : List (GoString × α)) (k : GoString) :
    mget m k = none ↔ k ∉ mkeys m := by
  rw [← mget_isSome_iff_mem_mkeys]
  cases mget m k <;> simp

/-! ## Claims about the result store shim -/

/-- C9: Set panics exactly on an empty allocation ID or an empty result
check ID; with both non-empty it does not panic. -/
theorem shim_set_panic_iff (cur : ShimState) (allocID : GoString)
    (qr : CheckQueryResult) :
    shimSet cur allocID qr = none ↔ (allocID = [] ∨ qr.ID = []) := by
  unfold shimSet
  by_cases h1 : allocID = [] <;> by_cases h2 : qr.ID = [] <;> simp [h1, h2]

theorem copyMap_id (m : AllocResultMap) : copyMap m = m := by
  simp [copyMap]

/-- C8: List returns the allocation's current mapping as a copy whose
content equals the stored mapping — the store state itself is not part of
the return value, so no mutation of the copy reaches the store — and
returns an absent result when the allocation has no entries. -/
theorem shim_list_copy_semantics (cur : ShimState) (a : GoString) :
    (∀ am, mget cur a = some am →
      shimList cur a = some (copyMap am) ∧ copyMap am = am) ∧
    (mget cur a = none → shimList cur a = none) := by
  constructor
  · intro am h
    exact ⟨by simp [shimList, h], copyMap_id am⟩
  · intro h
    simp [shimList, h]

/-- C8 witness: the copy semantics evaluated on a concrete store with one
allocation entry and on an absent allocation. -/
theorem shim_list_copy_semantics_witness :
    (mget sys3.cur aid3 = some [(cid3, Stub cid3 .healthiness 0)] ∧
      shimList sys3.cur aid3 = some (copyMap [(cid3, Stub cid3 .healthiness 0)]) ∧
      copyMap [(cid3, Stub cid3 .healthiness 0)] = [(cid3, Stub cid3 .healthiness 0)]) ∧
    (mget sys3.cur (gostr "other") = none ∧ shimList sys3.cur (gostr "other") = none) := by
  refine ⟨⟨by decide, ?_⟩, ⟨by decide, ?_⟩⟩
  · exact (shim_list_copy_semantics sys3.cur aid3).1 _ (by decide)
  · exact (shim_list_copy_semantics sys3.cur (gostr "other")).2 (by decide)

/-! ## Claims about check-ID derivation -/

/-- C10: the `chk_`-prefixed MakeCheckID panics on `allocID[0:8]` exactly
when the allocation ID is shorter than 8 bytes, and is total otherwise. -/
theorem makeCheckID_panic_iff (a g t n : GoString) :
    MakeCheckID a g t n = none ↔ a.length < 8 := by
  unfold MakeCheckID
  by_cases h : a.length < 8
  · simp [h]
  · simp only [h, if_false]
    by_cases ht : t = [] <;> simp [ht, h]

theorem wrField_eq (s : GoString) : wrField s = s := by
  unfold wrField
  split <;> simp_all

theorem enc8_inj {m n : Nat} (hm : m < 18446744073709551616)
    (hn : n < 18446744073709551616) (h : enc8 m = enc8 n) : m = n := by
  simp only [enc8, List.cons.injEq, and_true] at h
  omega

/-- C1: counterexample — `NomadCheckID` feeds the fields to md5 as a plain
concatenation, so two checks sharing allocation ID, group, task and name
that differ in both protocol ("https" vs "http") and path ("" vs "s"), two
execution-relevant fields, produce the same hash input and hence the same
CheckID, refuting the claim as stated. -/
theorem nomadCheckID_collision_counterexample :
    chkA.Protocol ≠ chkB.Protocol ∧ chkA.Path ≠ chkB.Path ∧
    chkA.TaskName = chkB.TaskName ∧ chkA.Name = chkB.Name ∧
    NomadCheckID allocIDc groupC chkA = NomadCheckID allocIDc groupC chkB := by
  refine ⟨by decide, by decide, rfl, rfl, ?_⟩
  have h : nomadCheckIDInput allocIDc groupC chkA =
      nomadCheckIDInput allocIDc groupC chkB := by decide
  unfold NomadCheckID
  rw [h]

/-- C1 (amended): for two check definitions sharing allocation ID, task
group, task name and check name and differing in exactly one
execution-relevant field, the byte sequences fed to md5 differ — so the
CheckIDs differ whenever md5 does not collide. When two or more fields
change at once the inputs can coincide (see the counterexample) and the IDs
are then equal. -/
theorem nomadCheckID_single_field_distinct
    (allocID group : GoString) (a b : ServiceCheck)
    (hT : a.TaskName = b.TaskName) (hN : a.Name = b.Name)
    (hIa : a.Interval < 18446744073709551616)
    (hIb : b.Interval < 18446744073709551616)
    (hTa : a.Timeout < 18446744073709551616)
    (hTb : b.Timeout < 18446744073709551616)
    (hone : DiffExactlyOne a b) :
    nomadCheckIDInput allocID group a ≠ nomadCheckIDInput allocID group b := by
  intro h
  simp only [nomadCheckIDInput, wrField_eq, List.append_assoc] at h
  rw [hT, hN] at h
  have h1 := List.append_cancel_left (List.append_cancel_left
    (List.append_cancel_left (List.append_cancel_left h)))
  rcases hone with ⟨hne, heq⟩ | ⟨hne, heq⟩ | ⟨hne, heq⟩ | ⟨hne, heq⟩ |
    ⟨hne, heq⟩ | ⟨hne, heq⟩ | ⟨hne, heq⟩ | ⟨hne, heq⟩ | ⟨hne, heq⟩
  · obtain ⟨e1, e2, e3, e4, e5, e6, e7, e8⟩ := heq
    rw [e1, e2, e3, e4, e5, e6, e7, e8] at h1
    exact hne (List.append_cancel_right h1)
  · obtain ⟨e1, e2, e3, e4, e5, e6, e7, e8⟩ := heq
    rw [e1] at h1
    have h2 := List.append_cancel_left h1
    rw [e2, e3, e4, e5, e6, e7, e8] at h2
    exact hne (List.append_cancel_right h2)
  · obtain ⟨e1, e2, e3, e4, e5, e6, e7, e8⟩ := heq
    rw [e1, e2] at h1
    have h2 := List.append_cancel_left (List.append_cancel_left h1)
    rw [e3, e4, e5, e6, e7, e8] at h2
    exact hne (List.append_cancel_right h2)
  · obtain ⟨e1, e2, e3, e4, e5, e6, e7, e8⟩ := heq
    rw [e1, e2, e3] at h1
    have h2 := List.append_cancel_left (List.append_cancel_left
      (List.append_cancel_left h1))
    rw [e4, e5, e6, e7, e8] at h2
    exact hne (List.append_cancel_right h2)
  · obtain ⟨e1, e2, e3, e4, e5, e6, e7, e8⟩ := heq
    rw [e1, e2, e3, e4] at h1
    have h2 := List.append_cancel_left (List.append_cancel_left
      (List.append_cancel_left (List.append_cancel_left h1)))
    rw [e5, e6, e7, e8] at h2
    exact hne (enc8_inj hIa hIb (List.append_cancel_right h2))
  · obtain ⟨e1, e2, e3, e4, e5, e6, e7, e8⟩ := heq
    rw [e1, e2, e3, e4, e5] at h1
    have h2 := List.append_cancel_left (List.append_cancel_left
      (List.append_cancel_left (List.append_cancel_left
        (List.append_cancel_left h1))))
    rw [e6, e7, e8] at h2
    exact hne (enc8_inj hTa hTb (List.append_cancel_right h2))
  · obtain ⟨e1, e2, e3, e4, e5, e6, e7, e8⟩ := heq
    rw [e1, e2, e3, e4, e5, e6] at h1
    have h2 := List.append_cancel_left (List.append_cancel_left
      (List.append_cancel_left (List.append_cancel_left
        (List.append_cancel_left (List.append_cancel_left h1)))))
    rw [e7, e8] at h2
    exact hne (List.append_cancel_right h2)
  · obtain ⟨e1, e2, e3, e4, e5, e6, e7, e8⟩ := heq
    rw [e1, e2, e3, e4, e5, e6, e7] at h1
    have h2 := List.append_cancel_left (List.append_cancel_left
      (List.append_cancel_left (List.append_cancel_left
        (List.append_cancel_left (List.append_cancel_left
          (List.append_cancel_left h1))))))
    rw [e8] at h2
    exact hne (List.append_cancel_right h2)
  · obtain ⟨e1, e2, e3, e4, e5, e6, e7, e8⟩ := heq
    rw [e1, e2, e3, e4, e5, e6, e7, e8] at h1
    have h2 := List.append_cancel_left (List.append_cancel_left
      (List.append_cancel_left (List.append_cancel_left
        (List.append_cancel_left (List.append_cancel_left
          (List.append_cancel_left (List.append_cancel_left h1)))))))
    exact hne h2

/-- C1 witness: two concrete checks differing only in the interval have
distinct md5 inputs. -/
theorem nomadCheckID_single_field_distinct_witness :
    (chkC.TaskName = chkD.TaskName ∧ chkC.Name = chkD.Name ∧
      chkC.Interval < 18446744073709551616 ∧
      chkD.Interval < 18446744073709551616 ∧
      chkC.Timeout < 18446744073709551616 ∧
      chkD.Timeout < 18446744073709551616 ∧ DiffExactlyOne chkC chkD) ∧
    nomadCheckIDInput allocIDc groupC chkC ≠
      nomadCheckIDInput allocIDc groupC chkD := by
  refine ⟨⟨rfl, rfl, by decide, by decide, by decide, by decide, by decide⟩, ?_⟩
  exact nomadCheckID_single_field_distinct allocIDc groupC chkC chkD rfl rfl
    (by decide) (by decide) (by decide) (by decide) (by decide)

/-! ## Claims about the probe executor -/

theorem shimSet_isSome (cur : ShimState) (allocID : GoString)
    (qr : CheckQueryResult) (h1 : allocID ≠ []) (h2 : qr.ID ≠ []) :
    ∃ cur1, shimSet cur allocID qr = some cur1 := by
  unfold shimSet
  simp [h1, h2]

/-- C4: counterexample — `checkHTTP` stores the whole response body with
`ioutil.ReadAll` and no size cap, so a 3073-byte body (one past a 3 KB cap)
is stored at full length, not truncated to 3072. -/
theorem checkHTTP_no_truncation_counterexample :
    (checkHTTP 0 oracleBig qcOk qHttp).Output = bigBody ∧
    (checkHTTP 0 oracleBig qcOk qHttp).Output.length = 3073 ∧ 3072 < 3073 := by
  have h : (checkHTTP 0 oracleBig qcOk qHttp).Output = bigBody := rfl
  refine ⟨h, ?_, by omega⟩
  rw [h]
  unfold bigBody
  exact List.length_replicate ..

/-- C4 (amended): no truncation is applied — whenever the round trip
returns a response whose body reads successfully, the stored Output is the
entire body, whatever its length. -/
theorem checkHTTP_output_full_body (now : Int) (o : NetOracle)
    (qc : QueryContext) (q : Query) (addr : GoString) (status : Nat)
    (b : GoString) (haddr : address qc q = .ok addr)
    (hhttp : o.http q.Method (urlOf q.Protocol addr q.Path) =
      .response status (.ok b)) :
    (checkHTTP now o qc q).Output = b := by
  unfold checkHTTP
  rw [haddr]
  dsimp only
  rw [hhttp]
  dsimp only
  by_cases hs : status < 400 <;> simp [hs]

/-- C4 witness: the full-body behaviour evaluated on a concrete context and
oracle. -/
theorem checkHTTP_output_full_body_witness :
    address qcOk qHttp = .ok (gostr "10.0.0.1:8080") ∧
    oracleSmall.http qHttp.Method
      (urlOf qHttp.Protocol (gostr "10.0.0.1:8080") qHttp.Path) =
      .response 200 (.ok (gostr "ok body")) ∧
    (checkHTTP 7 oracleSmall qcOk qHttp).Output = gostr "ok body" := by
  refine ⟨rfl, rfl, ?_⟩
  exact checkHTTP_output_full_body 7 oracleSmall qcOk qHttp
    (gostr "10.0.0.1:8080") 200 (gostr "ok body") rfl rfl

/-- C5: Checker.Do is total (it returns a result for every oracle, context
and query); a failed address resolution, a failed TCP dial and a failed
HTTP round trip each yield Status=Failure with the error text contained in
the Output; and the observer loop is never stopped by a result — after any
probe returns, the observer re-enters its select rather than exiting. -/
theorem checker_do_total_failure_encoding (now : Int) (o : NetOracle)
    (qc : QueryContext) (q : Query) (e : GoString) :
    (address qc q = .error e →
      (checkerDo now o qc q).Result = .failure ∧
      e <:+: (checkerDo now o qc q).Output) ∧
    (∀ addr, address qc q = .ok addr → q.Typ ≠ gostr "http" →
      o.dial addr = some e →
      (checkerDo now o qc q).Result = .failure ∧
      e <:+: (checkerDo now o qc q).Output) ∧
    (∀ addr, address qc q = .ok addr → q.Typ = gostr "http" →
      o.http q.Method (urlOf q.Protocol addr q.Path) = .transportErr e →
      (checkerDo now o qc q).Result = .failure ∧
      e <:+: (checkerDo now o qc q).Output) ∧
    (∀ (aID : GoString) (r : CheckQueryResult) (s : ObsSys),
      s.phase = .probing → aID ≠ [] → r.ID ≠ [] →
      (stepProbeReturn aID r s).phase = .waiting) := by
  refine ⟨?_, ?_, ?_, ?_⟩
  · intro haddr
    unfold checkerDo
    by_cases hTyp : q.Typ = gostr "http"
    · rw [if_pos hTyp]
      unfold checkHTTP
      rw [haddr]
      exact ⟨rfl, List.infix_refl e⟩
    · rw [if_neg hTyp]
      unfold checkTCP
      rw [haddr]
      exact ⟨rfl, List.infix_refl e⟩
  · intro addr haddr hTyp hdial
    unfold checkerDo
    rw [if_neg hTyp]
    unfold checkTCP
    rw [haddr]
    dsimp only
    rw [hdial]
    exact ⟨rfl, List.infix_refl e⟩
  · intro addr haddr hTyp hhttp
    unfold checkerDo
    rw [if_pos hTyp]
    unfold checkHTTP
    rw [haddr]
    dsimp only
    rw [hhttp]
    exact ⟨rfl, ⟨gostr "nomad: ", [], by simp⟩⟩
  · intro aID r s hphase hA hID
    obtain ⟨cur1, hset⟩ := shimSet_isSome s.cur aID r hA hID
    unfold stepProbeReturn
    rw [if_pos hphase, hset]

/-- C5 witness: the three failure modes evaluated on concrete inputs — a
context whose port label is not claimed, a refused TCP dial, and a failed
HTTP round trip. -/
theorem checker_do_total_failure_encoding_witness :
    (address qcBadLabel qTcp =
      .error (gostr "port label not claimed by the allocation: db") ∧
      (checkerDo 1 oracleDown qcBadLabel qTcp).Result = .failure ∧
      gostr "port label not claimed by the allocation: db" <:+:
        (checkerDo 1 oracleDown qcBadLabel qTcp).Output) ∧
    (address qcOk qTcp = .ok (gostr "10.0.0.1:8080") ∧
      oracleDown.dial (gostr "10.0.0.1:8080") =
        some (gostr "dial tcp: connection refused") ∧
      (checkerDo 1 oracleDown qcOk qTcp).Result = .failure ∧
      gostr "dial tcp: connection refused" <:+:
        (checkerDo 1 oracleDown qcOk qTcp).Output) ∧
    (oracleDown.http qHttp.Method
        (urlOf qHttp.Protocol (gostr "10.0.0.1:8080") qHttp.Path) =
        .transportErr (gostr "connect: no route to host") ∧
      (checkerDo 1 oracleDown qcOk qHttp).Result = .failure ∧
      gostr "connect: no route to host" <:+:
        (checkerDo 1 oracleDown qcOk qHttp).Output) := by
  refine ⟨⟨rfl, ?_⟩, ⟨rfl, rfl, ?_⟩, ⟨rfl, ?_⟩⟩
  · exact (checker_do_total_failure_encoding 1 oracleDown qcBadLabel qTcp
      (gostr "port label not claimed by the allocation: db")).1 rfl
  · exact ((checker_do_total_failure_encoding 1 oracleDown qcOk qTcp
      (gostr "dial tcp: connection refused")).2.1 (gostr "10.0.0.1:8080")
      rfl (by decide) rfl)
  · exact ((checker_do_total_failure_encoding 1 oracleDown qcOk qHttp
      (gostr "connect: no route to host")).2.2.1 (gostr "10.0.0.1:8080")
      rfl rfl rfl)

/-- C7: with no explicit address mode, a service with a custom address
resolves in "auto" mode and the custom address is the resolved host; with
no custom address the mode defaults to "host"; the port label is the
check's own when set and the service's otherwise. -/
theorem address_resolution_policy (qc : QueryContext) (q : Query) :
    (q.AddressMode = [] → qc.CustomAddress ≠ [] →
      resolveMode qc q = gostr "auto" ∧
      specGetAddress qc.CustomAddress (resolveMode qc q) (resolveLabel qc q)
        qc.Ports qc.HostAddress =
        .ok (qc.CustomAddress, (mget qc.Ports (resolveLabel qc q)).getD 0)) ∧
    (q.AddressMode = [] → qc.CustomAddress = [] →
      resolveMode qc q = gostr "host") ∧
    (q.PortLabel ≠ [] → resolveLabel qc q = q.PortLabel) ∧
    (q.PortLabel = [] → resolveLabel qc q = qc.ServicePortLabel) := by
  refine ⟨?_, ?_, ?_, ?_⟩
  · intro hmode hcustom
    have hm : resolveMode qc q = gostr "auto" := by
      unfold resolveMode
      simp [hmode, hcustom]
    refine ⟨hm, ?_⟩
    rw [hm]
    unfold specGetAddress
    simp [hcustom]
  · intro hmode hcustom
    unfold resolveMode
    simp [hmode, hcustom]
  · intro hlab
    unfold resolveLabel
    simp [hlab]
  · intro hlab
    unfold resolveLabel
    simp [hlab]

/-- C7 witness: the policy evaluated on a custom-address service with a
label-less check and on a host-mode service with a check owning a label. -/
theorem address_resolution_policy_witness :
    (qHttp.AddressMode = [] ∧ qcCustom.CustomAddress ≠ [] ∧
      resolveMode qcCustom qHttp = gostr "auto" ∧
      specGetAddress qcCustom.CustomAddress (resolveMode qcCustom qHttp)
        (resolveLabel qcCustom qHttp) qcCustom.Ports qcCustom.HostAddress =
        .ok (qcCustom.CustomAddress,
          (mget qcCustom.Ports (resolveLabel qcCustom qHttp)).getD 0) ∧
      resolveLabel qcCustom qHttp = qcCustom.ServicePortLabel) ∧
    (qOwnLabel.AddressMode = [] ∧ qcOk.CustomAddress = [] ∧
      resolveMode qcOk qOwnLabel = gostr "host" ∧
      resolveLabel qcOk qOwnLabel = qOwnLabel.PortLabel) := by
  refine ⟨⟨rfl, by decide, ?_, ?_, ?_⟩, ⟨rfl, rfl, ?_, ?_⟩⟩
  · exact ((address_resolution_policy qcCustom qHttp).1 rfl (by decide)).1
  · exact ((address_resolution_policy qcCustom qHttp).1 rfl (by decide)).2
  · exact (address_resolution_policy qcCustom qHttp).2.2.2 rfl
  · exact (address_resolution_policy qcOk qOwnLabel).2.1 rfl rfl
  · exact (address_resolution_policy qcOk qOwnLabel).2.2.1 (by decide)

/-! ## Claim about PreKill and in-flight probes -/

/-- C3: the code violates the claim. Immediately after PreKill (context
cancelled, results purged) the store is empty for the allocation; but when
a probe was in flight at PreKill time, the observer loop writes its result
to the store after the probe returns — there is no context check between
`Do` and `Set` — so the purged store holds that result again and
`List(allocID)` is non-empty after PreKill. The trace: timer fires, PreKill
runs, the in-flight probe returns. -/
theorem observer_write_after_prekill_trace :
    shimList (stepPreKill aid3 (stepTimerFire sys3)).cur aid3 = none ∧
    (stepPreKill aid3 (stepTimerFire sys3)).cancelled = true ∧
    shimList (stepProbeReturn aid3 res3 (stepPreKill aid3 (stepTimerFire sys3))).cur
      aid3 = some [(cid3, res3)] := by
  refine ⟨?_, rfl, ?_⟩ <;> decide

/-! ## Reconciliation machinery -/

theorem md5hex_ne_nil (msg : List Nat) : md5hex msg ≠ [] := by
  unfold md5hex bytesToHex md5digest enc4
  simp

theorem makeCheckIDmd5_ne_nil (a g t n : GoString) :
    MakeCheckIDmd5 a g t n ≠ [] := by
  unfold MakeCheckIDmd5
  exact md5hex_ne_nil _

theorem checkIDof_ne_nil (alloc : Alloc) (c : ServiceCheck) :
    checkIDof alloc c ≠ [] := by
  unfold checkIDof
  exact makeCheckIDmd5_ne_nil _ _ _ _

theorem shimSet_amget (cur : ShimState) (allocID : GoString)
    (qr : CheckQueryResult) (cur1 : ShimState)
    (h : shimSet cur allocID qr = some cur1) (id : GoString) :
    amget cur1 allocID id =
      if id = qr.ID then some qr else amget cur allocID id := by
  unfold shimSet at h
  by_cases h1 : allocID = []
  · simp [h1] at h
  · by_cases h2 : qr.ID = []
    · simp [h1, h2] at h
    · simp only [h1, h2, if_neg, if_false] at h
      injection h with h
      subst h
      unfold amget
      rw [mget_mput_self]
      simp only [Option.getD_some]
      by_cases hid : id = qr.ID
      · subst hid
        rw [mget_mput_self, if_pos rfl]
      · rw [mget_mput_ne _ _ _ _ hid, if_neg hid]

theorem shimRemove_amget (cur : ShimState) (aID : GoString)
    (ids : List GoString) (id : GoString) :
    amget (shimRemove cur aID ids) aID id =
      if id ∈ ids then none else amget cur aID id := by
  unfold shimRemove
  cases hm : mget cur aID with
  | none =>
    have hz : amget cur aID id = none := by simp [amget, hm, mget]
    rw [hz]
    split <;> simp [hz]
  | some am =>
    unfold amget
    rw [mget_mput_self]
    simp only [Option.getD_some, hm]
    rw [mget_foldl_mdel]

theorem shimUnwanted_mem (cur : ShimState) (aID : GoString)
    (ids : List GoString) (id : GoString) :
    id ∈ shimUnwanted cur aID ids ↔
      (amget cur aID id).isSome ∧ id ∉ ids := by
  unfold shimUnwanted amget
  rw [List.mem_filter, mget_isSome_iff_mem_mkeys]
  simp

theorem idsOfChecks_cons (alloc : Alloc) (c : ServiceCheck)
    (cs : List ServiceCheck) :
    idsOfChecks alloc (c :: cs) = checkIDof alloc c :: idsOfChecks alloc cs := by
  simp [idsOfChecks]

theorem desiredIDs_eq_idsOfChecks (alloc : Alloc) (services : List Service)
    (htask : ∀ svc ∈ services, ∀ c ∈ svc.Checks, c.TaskName = svc.TaskName) :
    desiredIDs alloc services = idsOfChecks alloc (svcChecks services) := by
  induction services with
  | nil => rfl
  | cons svc rest ih =>
    have h1 : ∀ s ∈ rest, ∀ c ∈ s.Checks, c.TaskName = s.TaskName :=
      fun s hs => htask s (List.mem_cons_of_mem _ hs)
    have h2 : ∀ c ∈ svc.Checks, c.TaskName = svc.TaskName :=
      htask svc (List.mem_cons_self _ _)
    unfold desiredIDs svcChecks idsOfChecks
    simp only [List.map_cons, List.flatten_cons, List.map_append]
    have hhd : svc.Checks.map (fun c =>
        MakeCheckIDmd5 alloc.ID alloc.TaskGroup svc.TaskName c.Name) =
        svc.Checks.map (checkIDof alloc) := by
      apply List.map_congr_left
      intro c hc
      unfold checkIDof
      rw [h2 c hc]
    rw [hhd]
    have htl := ih h1
    unfold desiredIDs svcChecks idsOfChecks at htl
    rw [htl]

theorem observeGo_spec (alloc : Alloc) (now : Int) (hA : GoString)
    (hAne : hA ≠ []) (cs : List ServiceCheck) :
    ∀ (obs : List GoString) (cur : ShimState) (started : List GoString),
    ∃ obs1 cur1 started1,
      observeGo hA alloc now cs (obs, cur, started) =
        some (obs1, cur1, started1) ∧
      (∀ id, id ∈ obs1 ↔ id ∈ obs ∨ id ∈ idsOfChecks alloc cs) ∧
      (∀ id, id ∈ started1 ↔
        id ∈ started ∨ (id ∈ idsOfChecks alloc cs ∧ id ∉ obs)) ∧
      (∀ id, id ∈ idsOfChecks alloc cs → id ∉ obs →
        ∃ r, amget cur1 hA id = some r ∧ r.Status = .pending ∧ r.ID = id) ∧
      (∀ id, (id ∉ idsOfChecks alloc cs ∨ id ∈ obs) →
        amget cur1 hA id = amget cur hA id) := by
  induction cs with
  | nil =>
    intro obs cur started
    exact ⟨obs, cur, started, rfl, by simp [idsOfChecks],
      by simp [idsOfChecks], by simp [idsOfChecks], fun id _ => rfl⟩
  | cons c cs ih =>
    intro obs cur started
    by_cases hmem : checkIDof alloc c ∈ obs
    · obtain ⟨obs1, cur1, started1, heq, hobs, hstart, hstub, hother⟩ :=
        ih obs cur started
      refine ⟨obs1, cur1, started1, ?_, ?_, ?_, ?_, ?_⟩
      · rw [observeGo]
        rw [if_pos hmem]
        exact heq
      · intro id
        rw [hobs id, idsOfChecks_cons]
        have himp : id = checkIDof alloc c → id ∈ obs := fun he => he ▸ hmem
        simp only [List.mem_cons]
        tauto
      · intro id
        rw [hstart id, idsOfChecks_cons]
        have himp : id = checkIDof alloc c → id ∈ obs := fun he => he ▸ hmem
        simp only [List.mem_cons]
        tauto
      · intro id hin hout
        rw [idsOfChecks_cons, List.mem_cons] at hin
        rcases hin with he | hin
        · exact absurd (he ▸ hmem) hout
        · exact hstub id hin hout
      · intro id hcond
        apply hother
        rw [idsOfChecks_cons, List.mem_cons] at hcond
        tauto
    · have hidne : (Stub (checkIDof alloc c) (GetCheckMode c) now).ID ≠ [] :=
        checkIDof_ne_nil alloc c
      obtain ⟨curS, hset⟩ :=
        shimSet_isSome cur hA (Stub (checkIDof alloc c) (GetCheckMode c) now)
          hAne hidne
      obtain ⟨obs1, cur1, started1, heq, hobs, hstart, hstub, hother⟩ :=
        ih (obs ++ [checkIDof alloc c]) curS (started ++ [checkIDof alloc c])
      have hSam := shimSet_amget cur hA _ curS hset
      refine ⟨obs1, cur1, started1, ?_, ?_, ?_, ?_, ?_⟩
      · rw [observeGo]
        rw [if_neg hmem, hset]
        exact heq
      · intro id
        rw [hobs id, idsOfChecks_cons]
        simp only [List.mem_append, List.mem_cons, List.mem_singleton]
        tauto
      · intro id
        rw [hstart id, idsOfChecks_cons]
        simp only [List.mem_append, List.mem_cons, List.mem_singleton]
        by_cases hid : id = checkIDof alloc c
        · subst hid
          tauto
        · tauto
      · intro id hin hout
        rw [idsOfChecks_cons, List.mem_cons] at hin
        by_cases hid : id = checkIDof alloc c
        · have hunch : amget cur1 hA (checkIDof alloc c) =
              amget curS hA (checkIDof alloc c) := by
            apply hother
            right
            simp
          rw [hid, hunch, hSam (checkIDof alloc c)]
          simp [Stub]
        · rcases hin with he | hin
          · exact absurd he hid
          · have hout2 : id ∉ obs ++ [checkIDof alloc c] := by
              simp only [List.mem_append, List.mem_singleton]
              tauto
            exact hstub id hin hout2
      · intro id hcond
        have hid : id ≠ checkIDof alloc c := by
          rcases hcond with hni | hi
          · rw [idsOfChecks_cons, List.mem_cons] at hni
            tauto
          · exact fun he => hmem (he ▸ hi)
        have hunch : amget cur1 hA id = amget curS hA id := by
          apply hother
          rcases hcond with hni | hi
          · left
            rw [idsOfChecks_cons, List.mem_cons] at hni
            tauto
          · right
            exact List.mem_append_left _ hi
        have hid2 : id ≠ (Stub (checkIDof alloc c) (GetCheckMode c) now).ID := hid
        rw [hunch, hSam id, if_neg hid2]

theorem hookUpdate_spec (h : ChecksHook) (now : Int) (alloc : Alloc)
    (services : List Service)
    (hsvc : alloc.NomadSvcs = some services)
    (halloc : alloc.ID = h.allocID)
    (hAne : h.allocID ≠ [])
    (htask : ∀ svc ∈ services, ∀ c ∈ svc.Checks, c.TaskName = svc.TaskName)
    (hkeys : ∀ id, (amget h.shim alloc.ID id).isSome ↔ id ∈ h.observers) :
    ∃ obs1 cur1 remove started,
      hookUpdate h now alloc =
        some (⟨h.allocID, obs1, cur1, alloc⟩, remove, started) ∧
      (∀ id, id ∈ obs1 ↔ id ∈ desiredIDs alloc services) ∧
      (∀ id, id ∈ remove ↔
        id ∈ h.observers ∧ id ∉ desiredIDs alloc services) ∧
      (∀ id, id ∈ started ↔
        id ∈ desiredIDs alloc services ∧ id ∉ h.observers) ∧
      (∀ id, id ∈ desiredIDs alloc services → id ∉ h.observers →
        ∃ r, amget cur1 alloc.ID id = some r ∧ r.Status = .pending ∧
          r.ID = id) ∧
      (∀ id, id ∉ desiredIDs alloc services →
        amget cur1 alloc.ID id = none) ∧
      (∀ id, (amget cur1 alloc.ID id).isSome ↔
        id ∈ desiredIDs alloc services) := by
  have hD := desiredIDs_eq_idsOfChecks alloc services htask
  have hrem : ∀ id,
      id ∈ shimUnwanted h.shim alloc.ID (desiredIDs alloc services) ↔
      id ∈ h.observers ∧ id ∉ desiredIDs alloc services := by
    intro id
    rw [shimUnwanted_mem, hkeys id]
  have hguard : ∀ id ∈ shimUnwanted h.shim alloc.ID (desiredIDs alloc services),
      id ∈ h.observers := fun id hid => ((hrem id).1 hid).1
  obtain ⟨obs1, cur1, started1, heqGo, hobs, hstart, hstub, hother⟩ :=
    observeGo_spec alloc now h.allocID hAne (svcChecks services)
      (h.observers.filter (fun id => decide (id ∉
        shimUnwanted h.shim alloc.ID (desiredIDs alloc services))))
      (shimRemove h.shim alloc.ID
        (shimUnwanted h.shim alloc.ID (desiredIDs alloc services))) []
  have hmain : hookUpdate h now alloc =
      some (⟨h.allocID, obs1, cur1, alloc⟩,
        shimUnwanted h.shim alloc.ID (desiredIDs alloc services), started1) := by
    simp only [hookUpdate, hsvc]
    rw [dif_pos hguard]
    simp only [observe]
    rw [heqGo]
    rfl
  have hFmem : ∀ id, id ∈ h.observers.filter (fun id => decide (id ∉
      shimUnwanted h.shim alloc.ID (desiredIDs alloc services))) ↔
      id ∈ h.observers ∧ id ∈ desiredIDs alloc services := by
    intro id
    rw [List.mem_filter]
    simp only [decide_eq_true_eq]
    rw [hrem id]
    tauto
  have hnone : ∀ id, id ∉ desiredIDs alloc services →
      amget cur1 alloc.ID id = none := by
    intro id hnD
    have hni : id ∉ idsOfChecks alloc (svcChecks services) := by
      rw [← hD]
      exact hnD
    have h1 := hother id (Or.inl hni)
    rw [halloc, h1, ← halloc, shimRemove_amget]
    by_cases hobsm : id ∈ h.observers
    · rw [if_pos ((hrem id).2 ⟨hobsm, hnD⟩)]
    · have hnr : id ∉ shimUnwanted h.shim alloc.ID (desiredIDs alloc services) :=
        fun hr => hobsm ((hrem id).1 hr).1
      rw [if_neg hnr]
      have hns : ¬ (amget h.shim alloc.ID id).isSome :=
        fun hs => hobsm ((hkeys id).1 hs)
      exact Option.not_isSome_iff_eq_none.mp hns
  have hstubD : ∀ id, id ∈ desiredIDs alloc services → id ∉ h.observers →
      ∃ r, amget cur1 alloc.ID id = some r ∧ r.Status = .pending ∧
        r.ID = id := by
    intro id hDm hno
    have hids : id ∈ idsOfChecks alloc (svcChecks services) := by
      rw [← hD]
      exact hDm
    have hnf : id ∉ h.observers.filter (fun id => decide (id ∉
        shimUnwanted h.shim alloc.ID (desiredIDs alloc services))) :=
      fun hf => hno ((hFmem id).1 hf).1
    rw [halloc]
    exact hstub id hids hnf
  have hisSome : ∀ id, (amget cur1 alloc.ID id).isSome ↔
      id ∈ desiredIDs alloc services := by
    intro id
    constructor
    · intro hs
      by_contra hnD
      rw [hnone id hnD] at hs
      simp at hs
    · intro hDm
      by_cases hobsm : id ∈ h.observers
      · have hfm := (hFmem id).2 ⟨hobsm, hDm⟩
        have h1 := hother id (Or.inr hfm)
        rw [halloc, h1, ← halloc, shimRemove_amget]
        have hnr : id ∉ shimUnwanted h.shim alloc.ID (desiredIDs alloc services) :=
          fun hr => ((hrem id).1 hr).2 hDm
        rw [if_neg hnr]
        exact (hkeys id).2 hobsm
      · obtain ⟨r, hr, _, _⟩ := hstubD id hDm hobsm
        rw [hr]
        rfl
  refine ⟨obs1, cur1, _, started1, hmain, ?_, hrem, ?_, hstubD, hnone, hisSome⟩
  · intro id
    rw [hobs id, ← hD, hFmem id]
    tauto
  · intro id
    rw [hstart id, ← hD]
    simp only [List.not_mem_nil, false_or]
    rw [hFmem id]
    tauto

/-- C2: reconciliation. Under the well-formedness invariants that the store
holds exactly the observed IDs at entry and that each check's task name
agrees with its service's (as Update derives IDs from the service task name
where observe uses the check's), Update yields: running observers equal to
the desired ID set; every formerly observed ID not desired is in the
cancelled list and purged from the store; every desired ID not formerly
observed is freshly started with a Pending result in the store. -/
theorem checksHook_update_reconciliation (h : ChecksHook) (now : Int)
    (alloc : Alloc) (services : List Service)
    (hsvc : alloc.NomadSvcs = some services)
    (halloc : alloc.ID = h.allocID)
    (hAne : h.allocID ≠ [])
    (htask : ∀ svc ∈ services, ∀ c ∈ svc.Checks, c.TaskName = svc.TaskName)
    (hkeys : ∀ id, (amget h.shim alloc.ID id).isSome ↔ id ∈ h.observers) :
    ∃ h1 cancelled started,
      hookUpdate h now alloc = some (h1, cancelled, started) ∧
      (∀ id, id ∈ h1.observers ↔ id ∈ desiredIDs alloc services) ∧
      (∀ id, id ∈ h.observers → id ∉ desiredIDs alloc services →
        id ∈ cancelled ∧ amget h1.shim alloc.ID id = none) ∧
      (∀ id, id ∈ desiredIDs alloc services → id ∉ h.observers →
        id ∈ started ∧ ∃ r, amget h1.shim alloc.ID id = some r ∧
          r.Status = .pending ∧ r.ID = id) := by
  obtain ⟨obs1, cur1, remove, started, hmain, hobs, hrem, hstart, hstubD,
    hnone, _⟩ :=
    hookUpdate_spec h now alloc services hsvc halloc hAne htask hkeys
  refine ⟨⟨h.allocID, obs1, cur1, alloc⟩, remove, started, hmain, hobs,
    ?_, ?_⟩
  · intro id hin hnot
    exact ⟨(hrem id).2 ⟨hin, hnot⟩, hnone id hnot⟩
  · intro id hin hnot
    exact ⟨(hstart id).2 ⟨hin, hnot⟩, hstubD id hin hnot⟩

/-- C2 witness: the reconciliation at a concrete hook (no observers, empty
store) and a concrete allocation with one service and one check. -/
theorem checksHook_update_reconciliation_witness :
    (allocW.NomadSvcs = some [svcW] ∧ allocW.ID = hookW.allocID ∧
      hookW.allocID ≠ [] ∧
      (∀ svc ∈ [svcW], ∀ c ∈ svc.Checks, c.TaskName = svc.TaskName) ∧
      (∀ id, (amget hookW.shim allocW.ID id).isSome ↔
        id ∈ hookW.observers)) ∧
    (∃ h1 cancelled started,
      hookUpdate hookW 5 allocW = some (h1, cancelled, started) ∧
      (∀ id, id ∈ h1.observers ↔ id ∈ desiredIDs allocW [svcW]) ∧
      (∀ id, id ∈ hookW.observers → id ∉ desiredIDs allocW [svcW] →
        id ∈ cancelled ∧ amget h1.shim allocW.ID id = none) ∧
      (∀ id, id ∈ desiredIDs allocW [svcW] → id ∉ hookW.observers →
        id ∈ started ∧ ∃ r, amget h1.shim allocW.ID id = some r ∧
          r.Status = .pending ∧ r.ID = id)) := by
  have hkeys : ∀ id, (amget hookW.shim allocW.ID id).isSome ↔
      id ∈ hookW.observers := by
    intro id
    simp [hookW, amget, mget]
  have htask : ∀ svc ∈ [svcW], ∀ c ∈ svc.Checks, c.TaskName = svc.TaskName := by
    decide
  exact ⟨⟨rfl, rfl, by decide, htask, hkeys⟩,
    checksHook_update_reconciliation hookW 5 allocW [svcW] rfl rfl
      (by decide) htask hkeys⟩

/-- C6: idempotence. Under the same well-formedness invariants, running
Update a second time with the same allocation spec cancels no observer,
starts no observer, and leaves the running observer set the same as after
the first call. -/
theorem checksHook_update_idempotent (h : ChecksHook) (now now2 : Int)
    (alloc : Alloc) (services : List Service)
    (hsvc : alloc.NomadSvcs = some services)
    (halloc : alloc.ID = h.allocID)
    (hAne : h.allocID ≠ [])
    (htask : ∀ svc ∈ services, ∀ c ∈ svc.Checks, c.TaskName = svc.TaskName)
    (hkeys : ∀ id, (amget h.shim alloc.ID id).isSome ↔ id ∈ h.observers) :
    ∃ h1 cancelled1 started1 h2,
      hookUpdate h now alloc = some (h1, cancelled1, started1) ∧
      hookUpdate h1 now2 alloc = some (h2, [], []) ∧
      (∀ id, id ∈ h2.observers ↔ id ∈ h1.observers) := by
  obtain ⟨obs1, cur1, remove1, started1, hmain1, hobs1, _, _, _, _, hsome1⟩ :=
    hookUpdate_spec h now alloc services hsvc halloc hAne htask hkeys
  have halloc2 : alloc.ID =
      (⟨h.allocID, obs1, cur1, alloc⟩ : ChecksHook).allocID := halloc
  have hkeys2 : ∀ id,
      (amget (⟨h.allocID, obs1, cur1, alloc⟩ : ChecksHook).shim
        alloc.ID id).isSome ↔
      id ∈ (⟨h.allocID, obs1, cur1, alloc⟩ : ChecksHook).observers := by
    intro id
    exact Iff.trans (hsome1 id) (Iff.symm (hobs1 id))
  obtain ⟨obs2, cur2, remove2, started2, hmain2, hobs2, hrem2, hstart2,
    _, _, _⟩ :=
    hookUpdate_spec ⟨h.allocID, obs1, cur1, alloc⟩ now2 alloc services hsvc
      halloc2 hAne htask hkeys2
  have hr2nil : remove2 = [] := by
    rw [List.eq_nil_iff_forall_not_mem]
    intro id hid
    have hc := (hrem2 id).1 hid
    exact hc.2 ((hobs1 id).1 hc.1)
  have hs2nil : started2 = [] := by
    rw [List.eq_nil_iff_forall_not_mem]
    intro id hid
    have hc := (hstart2 id).1 hid
    exact hc.2 ((hobs1 id).2 hc.1)
  refine ⟨⟨h.allocID, obs1, cur1, alloc⟩, remove1, started1,
    ⟨h.allocID, obs2, cur2, alloc⟩, hmain1, ?_, ?_⟩
  · rw [hr2nil, hs2nil] at hmain2
    exact hmain2
  · intro id
    exact Iff.trans (hobs2 id) (Iff.symm (hobs1 id))

/-- C6 witness: idempotence at the concrete hook and allocation. -/
theorem checksHook_update_idempotent_witness :
    (allocW.NomadSvcs = some [svcW] ∧ allocW.ID = hookW.allocID ∧
      hookW.allocID ≠ [] ∧
      (∀ svc ∈ [svcW], ∀ c ∈ svc.Checks, c.TaskName = svc.TaskName) ∧
      (∀ id, (amget hookW.shim allocW.ID id).isSome ↔
        id ∈ hookW.observers)) ∧
    (∃ h1 cancelled1 started1 h2,
      hookUpdate hookW 5 allocW = some (h1, cancelled1, started1) ∧
      hookUpdate h1 6 allocW = some (h2, [], []) ∧
      (∀ id, id ∈ h2.observers ↔ id ∈ h1.observers)) := by
  have hkeys : ∀ id, (amget hookW.shim allocW.ID id).isSome ↔
      id ∈ hookW.observers := by
    intro id
    simp [hookW, amget, mget]
  have htask : ∀ svc ∈ [svcW], ∀ c ∈ svc.Checks, c.TaskName = svc.TaskName := by
    decide
  exact ⟨⟨rfl, rfl, by decide, htask, hkeys⟩,
    checksHook_update_idempotent hookW 5 6 allocW [svcW] rfl rfl
      (by decide) htask hkeys⟩
